import Mathlib

set_option autoImplicit false

/-!
Verification of the fiber switching core in
src/include/boost/context/fiber_fcontext.hpp.

The source is stateful code built on the external fcontext primitives
(make_fcontext, jump_fcontext, ontop_fcontext), so it is embedded as a
small-step machine: a world of suspended contexts, each identified by a
token (the source uses fcontext_t pointer values; every switch mints a
fresh token and consumes the token that was jumped to), together with a
control component saying what the single running context is doing.  Each
suspension point of the source becomes one constructor of Kont, and each
member function of fiber_handle becomes one transition of the step
function, annotated with the source lines it translates.  User callables
are a deep embedding (Prog) whose commands are exactly the calls the
public interface offers plus local observable effects; observable user
effects are logged in an event trace so that claims such as the one that
no user code runs during a probe are statable.
-/

namespace BoostContext

/-- fcontext_t is a nullable pointer to a saved machine context; pointer
    values are modelled as natural-number tokens, nullptr as none. -/
abbrev Fcontext := Option Nat

/-- std thread identity: none models the default-constructed id (the
    value std thread id has when it names no thread, source line 119),
    some n the identity of a real host thread. -/
abbrev ThreadIdent := Option Nat

/-- fiber_handle (source lines 222-400): the move-only owner of a
    suspended context.  Its single data member fctx_ is the nullable
    context token; the handle is empty exactly when fctx_ is none. -/
structure fiber_handle where
  fctx_ : Fcontext
deriving DecidableEq, Repr

/-- operator bool (source line 375): a handle is non-empty when it owns a
    context token. -/
def fiber_handle.nonEmpty (h : fiber_handle) : Bool :=
  h.fctx_.isSome

/-- the std exchange of fctx_ with nullptr that every consuming operation
    performs (source lines 250-254, 287-291, 320-324, 336-340, 350-354,
    364-368): reads the token and leaves the handle empty. -/
def exchangeNull (h : fiber_handle) : Fcontext × fiber_handle :=
  (h.fctx_, ⟨none⟩)

/-- data flag_t (source lines 64-67): selects which probe a ProbeMessage
    carries. -/
inductive Flag where
  | side_stack
  | hosting_thread
deriving DecidableEq, Repr

/-- a user function passed to resume_with or resume_from_any_thread_with.
    It is run by fiber_ontop (source lines 134-147) on the destination
    stack; tag identifies the function in the event trace, body maps the
    received source handle to the handle that becomes the effective
    transfer. -/
structure UserFn where
  tag : Nat
  body : fiber_handle → fiber_handle

/-- observable user-level effects.  dispatched marks the moment the user
    callable of a record is invoked (source line 124), acquire and release
    are the scoped-resource counter of the spec, ontopRan marks a
    resume_with function running on the destination stack, freed marks
    fiber_exit deallocating a record and its stack. -/
inductive Event where
  | dispatched (rid : Nat)
  | acquire (rid : Nat)
  | release (rid : Nat)
  | emitted (e : Nat)
  | ontopRan (tag : Nat) (src : Fcontext)
  | freed (rid : Nat)
deriving DecidableEq, Repr

/-- deep embedding of user callables and of driving scenarios, in
    continuation style.  Each constructor is one call into the public
    fiber_handle interface or a local observable effect:
    ret returns from the callable (or ends the scenario on the main
    context); mkFiber is the constructor from a callable; resume,
    resumeAny, resumeWith, resumeAnyWith, canResume, canResumeAny are the
    like-named members; drop is the destructor of a handle value; onErr
    continuations model an enclosing catch of the std domain_error that
    resume and resume_with throw; scopedRes acquires a scoped resource
    released at scope exit or unwind; emit is a plain observable effect;
    hop models handing the running code to another host thread (the core
    reads the current thread identity through this ambient value).
    resumeAnyCatch is resume_from_any_thread wrapped in a user try block
    with a catch-all handler guarding exactly the resume call: since the
    unwind signal of the source is an ordinary C++ exception (fiber_unwind,
    line 91, throws forced_unwind), such a handler can intercept it before
    the trampoline catch of line 125; on normal return the try block exits
    and k receives the handle, on a forced unwind delivered to the
    suspension the handler hcatch runs instead. -/
inductive Prog where
  | ret (h : fiber_handle)
  | mkFiber (fn : fiber_handle → Prog) (k : fiber_handle → Prog)
  | resume (h : fiber_handle) (k : fiber_handle → Prog) (onErr : fiber_handle → Prog)
  | resumeAny (h : fiber_handle) (k : fiber_handle → Prog)
  | resumeAnyCatch (h : fiber_handle) (k : fiber_handle → Prog) (hcatch : Prog)
  | resumeWith (h : fiber_handle) (f : UserFn) (k : fiber_handle → Prog)
      (onErr : fiber_handle → Prog)
  | resumeAnyWith (h : fiber_handle) (f : UserFn) (k : fiber_handle → Prog)
  | canResume (h : fiber_handle) (k : fiber_handle → Bool → Prog)
  | canResumeAny (h : fiber_handle) (k : fiber_handle → Bool → Prog)
  | drop (h : fiber_handle) (k : Prog)
  | scopedRes (rid : Nat) (k : Prog)
  | emit (e : Nat) (k : Prog)
  | hop (tid : Nat) (k : Prog)

/-- fiber_record (source lines 150-193): the control block placed on the
    stack it owns.  rid identifies the record together with its stack and
    allocator (they are deallocated together by destroy, lines 156-163),
    fn is the user callable fn_. -/
structure fiber_record where
  rid : Nat
  fn : fiber_handle → Prog

/-- the stack frames of a context running (or suspended in) user code:
    base is some rid when the bottom of the stack is the fiber_entry
    trampoline of record rid (whose try block, lines 109-127, catches
    forced_unwind), and none for the original thread stack, which has no
    trampoline; dtors lists the scoped resources currently live on the
    stack, innermost first. -/
structure Frame where
  base : Option Nat
  dtors : List Nat

/-- the suspension points of the source, defunctionalised: what a context
    token denotes.
    entryIdle is the trampoline parked in the rep loop of fiber_entry at
    the jump of line 112 (reached by the bootstrap, before any user code);
    resumeLoop is a context suspended at the jump of line 286 inside
    resume_from_any_thread, carrying the thread identity captured at line
    284 and the continuation that receives the returned handle (line 303);
    resumeWithLoop is the same for resume_from_any_thread_with (suspended
    at the ontop call of line 319 or the drain jump of line 335);
    resumeLoopCatch is the same suspension as resumeLoop, but the user
    code around the resume call holds a live catch-all handler hk:
    because the unwind signal is thrown as an ordinary exception at this
    exact suspension point, that handler - not the trampoline catch -
    receives a forced unwind delivered here, while probes and ordinary
    deliveries behave exactly as at resumeLoop (the rep loop of lines
    293-302 is the same library code);
    dtorWait is a context suspended at the ontop call of the destructor
    (line 249), waiting for the forced unwind of the dropped context to
    finish. -/
inductive Kont where
  | entryIdle (rec : fiber_record)
  | resumeLoop (fr : Frame) (tid : Nat) (k : fiber_handle → Prog)
  | resumeWithLoop (fr : Frame) (tid : Nat) (k : fiber_handle → Prog)
  | resumeLoopCatch (fr : Frame) (tid : Nat) (k : fiber_handle → Prog) (hk : Prog)
  | dtorWait (fr : Frame) (k : Prog)

/-- association-list lookup of a suspended context by token. -/
def lookupCtx : List (Nat × Kont) → Nat → Option Kont
  | [], _ => none
  | (c, K) :: rest, c0 => if c = c0 then some K else lookupCtx rest c0

/-- removal of a token: a token is dead once it has been jumped to (the
    fcontext contract; jumping to a dead token is undefined behaviour and
    surfaces as a fatal state here). -/
def removeCtx : List (Nat × Kont) → Nat → List (Nat × Kont)
  | [], _ => []
  | (c, K) :: rest, c0 => if c = c0 then removeCtx rest c0 else (c, K) :: removeCtx rest c0

/-- removal of a record id from the live-records list. -/
def eraseAll : List Nat → Nat → List Nat
  | [], _ => []
  | r :: rest, r0 => if r = r0 then eraseAll rest r0 else r :: eraseAll rest r0

/-- the machine state outside the running context: the suspended contexts
    by token, the fresh-token source, the records (with their stacks)
    currently allocated, the scoped-resource counter of the spec, and the
    chronological trace of observable user-level events. -/
structure World where
  ctxs : List (Nat × Kont)
  next : Nat
  recs : List Nat
  counter : Int
  events : List Event

/-- running the pending destructors of a frame, innermost first: ordinary
    scope exit at the end of the user callable, or stack unwinding during
    a forced unwind.  Each scoped resource decrements the counter and logs
    one release event. -/
def runDtors : World → List Nat → World
  | w, [] => w
  | w, r :: rest =>
      runDtors { w with counter := w.counter - 1, events := w.events ++ [Event.release r] } rest

/-- fiber_uses_side_stack (source lines 73-87): walks the machine stack
    with libunwind and reports whether the outermost frame is
    make_fcontext, that is, whether the caller is executing on a fiber
    stack.  The libunwind walk is external; the machine supplies the fact
    it inspects (whether the answering context sits on a make_fcontext
    stack) as the argument. -/
def fiber_uses_side_stack (onFiberStack : Bool) : Bool :=
  onFiberStack

/-- the answer a suspended context writes into the by-reference probe slot
    for the hosting_thread flag before bouncing straight back:
    the parked trampoline answers the default thread id (source line 119),
    a context suspended inside resume_from_any_thread or
    resume_from_any_thread_with answers the thread identity captured when
    that call began (source lines 298 and 332).  No user handle ever names
    a dtorWait suspension, so no answer is defined there. -/
def probeHostAnswer : Kont → Option ThreadIdent
  | .entryIdle _ => some none
  | .resumeLoop _ tid _ => some (some tid)
  | .resumeWithLoop _ tid _ => some (some tid)
  | .resumeLoopCatch _ tid _ _ => some (some tid)
  | .dtorWait _ _ => none

/-- the probe answer for the side_stack flag (source lines 117, 296, 330):
    the answering code calls fiber_uses_side_stack on its own stack, so
    the trampoline answers true and a context suspended in a resume call
    answers whether its own stack is a fiber stack. -/
def probeStackAnswer : Kont → Option Bool
  | .entryIdle _ => some (fiber_uses_side_stack true)
  | .resumeLoop fr _ _ => some (fiber_uses_side_stack fr.base.isSome)
  | .resumeWithLoop fr _ _ => some (fiber_uses_side_stack fr.base.isSome)
  | .resumeLoopCatch fr _ _ _ => some (fiber_uses_side_stack fr.base.isSome)
  | .dtorWait _ _ => none

/-- fiber_handle can_resume (source lines 360-373): asserts the handle is
    non-empty, performs one probe round trip with the hosting_thread flag
    (the suspended target answers into the by-reference slot and bounces
    straight back, re-parking at the same suspension point under a fresh
    token, which is stored back into the handle at line 370), and returns
    true iff the reported identity equals the current thread or is the
    default id (lines 371-372).  none models the fatal outcomes (assert
    failure, jump to a dead token). -/
def can_resume (w : World) (h : fiber_handle) (tid : Nat) :
    Option (World × fiber_handle × Bool) :=
  match (exchangeNull h).1 with
  | none => none
  | some c =>
    match lookupCtx w.ctxs c with
    | none => none
    | some K =>
      match probeHostAnswer K with
      | none => none
      | some rep =>
        some ({ w with next := w.next + 1, ctxs := (w.next, K) :: removeCtx w.ctxs c },
              ⟨some w.next⟩,
              (some tid == rep) || ((none : ThreadIdent) == rep))

/-- fiber_handle can_resume_from_any_thread (source lines 346-358): the
    same probe round trip with the side_stack flag, returning the reported
    boolean unchanged (line 357). -/
def can_resume_from_any_thread (w : World) (h : fiber_handle) :
    Option (World × fiber_handle × Bool) :=
  match (exchangeNull h).1 with
  | none => none
  | some c =>
    match lookupCtx w.ctxs c with
    | none => none
    | some K =>
      match probeStackAnswer K with
      | none => none
      | some rep =>
        some ({ w with next := w.next + 1, ctxs := (w.next, K) :: removeCtx w.ctxs c },
              ⟨some w.next⟩,
              rep)

/-- which ontop function an ontop_fcontext call installs: fiber_exit of a
    record (source lines 95-101), fiber_unwind (lines 89-93), or
    fiber_ontop wrapping a user function (lines 134-147). -/
inductive OntopFn where
  | exitFn (rid : Nat)
  | unwindFn
  | userFn (f : UserFn)

/-- the control component: run is user code executing on the current
    context; jumpTo dst tf tid is a jump_fcontext in flight, about to
    resume token dst with transfer fctx tf and null data; ontopTo is an
    ontop_fcontext in flight, about to run its function on the restored
    stack of dst. -/
inductive Control where
  | run (fr : Frame) (tid : Nat) (p : Prog)
  | jumpTo (dst : Nat) (tf : Fcontext) (tid : Nat)
  | ontopTo (dst : Nat) (tf : Fcontext) (fn : OntopFn) (tid : Nat)

/-- machine status: still running, the main scenario returned a handle, or
    a fatal state (a BOOST_ASSERT failure, a jump to a dead token, or an
    exception escaping a noexcept boundary - all process-terminating). -/
inductive Status where
  | running (c : Control)
  | finished (h : fiber_handle)
  | fatal

/-- the whole machine. -/
structure Machine where
  w : World
  st : Status

/-- delivery of a null-data transfer to the suspension of token dst;
    the token is consumed by the jump.
    At entryIdle the jump of line 112 returns with null data, so the
    trampoline leaves the rep loop and dispatches the user callable with a
    handle made from the incoming fctx (line 124), on a fresh frame whose
    bottom is this trampoline; at resumeLoop the loop of line 293 exits
    and the resume call returns the new handle to its continuation (line
    303); at resumeWithLoop the drain loop of line 327 exits likewise
    (line 343); at dtorWait the ontop call of the destructor returns
    (its transfer is discarded) and the destructor body finishes. -/
def deliver (w : World) (dst : Nat) (tf : Fcontext) (tid : Nat) : Machine :=
  match lookupCtx w.ctxs dst with
  | none => ⟨w, .fatal⟩
  | some K =>
    let w1 : World := { w with ctxs := removeCtx w.ctxs dst }
    match K with
    | .entryIdle rec =>
        ⟨{ w1 with events := w1.events ++ [Event.dispatched rec.rid] },
         .running (.run ⟨some rec.rid, []⟩ tid (rec.fn ⟨tf⟩))⟩
    | .resumeLoop fr _ k => ⟨w1, .running (.run fr tid (k ⟨tf⟩))⟩
    | .resumeWithLoop fr _ k => ⟨w1, .running (.run fr tid (k ⟨tf⟩))⟩
    | .resumeLoopCatch fr _ k _ => ⟨w1, .running (.run fr tid (k ⟨tf⟩))⟩
    | .dtorWait fr k => ⟨w1, .running (.run fr tid k)⟩

/-- fiber_exit (source lines 95-101), running on the restored stack of
    dst: deallocates the record of the terminated fiber together with its
    stack (fiber_record destroy, lines 156-163) and returns the transfer
    with null fctx and null data, which is what the pending jump of dst
    then resumes with.  The token of the terminated fiber is discarded,
    never published, so no handle to the terminated context can exist. -/
def fiber_exit_step (w : World) (dst : Nat) (rid : Nat) (tid : Nat) : Machine :=
  deliver { w with recs := eraseAll w.recs rid, events := w.events ++ [Event.freed rid] }
    dst none tid

/-- fiber_ontop (source lines 134-147), running on the restored stack of
    dst: unwraps the user function, runs it with a handle made from the
    incoming source token, and returns the token of the handle it produced
    (nulling that handle, lines 142-146) as the effective transfer, which
    the pending jump of dst then resumes with. -/
def fiber_ontop_step (w : World) (dst : Nat) (tf : Fcontext) (f : UserFn) (tid : Nat) :
    Machine :=
  deliver { w with events := w.events ++ [Event.ontopRan f.tag tf] }
    dst (f.body ⟨tf⟩).fctx_ tid

/-- which frame a suspension unwinds through when no user handler
    intercepts the signal first: the parked trampoline has no user frames
    above its try block, a context suspended in a plain resume call
    unwinds its recorded frame.  For resumeLoopCatch the live user
    catch-all receives the exception before any frame below is reached
    (handlerOf, below), so no frame is given here; a dtorWait suspension
    is never the target of an unwind (the exception would escape the
    noexcept destructor): none, surfacing as fatal. -/
def frameOf : Kont → Option Frame
  | .entryIdle rec => some ⟨some rec.rid, []⟩
  | .resumeLoop fr _ _ => some fr
  | .resumeWithLoop fr _ _ => some fr
  | .resumeLoopCatch _ _ _ _ => none
  | .dtorWait _ _ => none

/-- the innermost live user catch-all handler of a suspension, with the
    frame it executes in, if any: the forced_unwind exception is an
    ordinary C++ exception thrown at the suspension point, so a user try
    block around the resume call intercepts it before the trampoline
    catch of line 125 is reached. -/
def handlerOf : Kont → Option (Frame × Prog)
  | .resumeLoopCatch fr _ _ hk => some (fr, hk)
  | _ => none

/-- fiber_unwind (source lines 89-93), running on the restored stack of
    dst: throws forced_unwind carrying the source token tf at the exact
    suspension point of dst.  Being an ordinary exception, it is first
    offered to any live user catch-all on that stack: such a handler
    intercepts and satisfies the signal, execution continues in the
    handler on the unwound-into context and the destructor context named
    by tf stays stranded.  Otherwise ordinary stack unwinding runs every
    live destructor of that stack, innermost first; if the bottom of the
    stack is a fiber_entry trampoline its catch (lines 125-127) captures
    the carried token and performs the same self-freeing exit handoff as
    normal exit (line 130); on a stack with no trampoline (and no
    handler) the exception escapes the stack after the destructors have
    run and the process dies of std terminate (fatal). -/
def fiber_unwind_step (w : World) (dst : Nat) (tf : Fcontext) (tid : Nat) : Machine :=
  match lookupCtx w.ctxs dst with
  | none => ⟨w, .fatal⟩
  | some K =>
    let w1 : World := { w with ctxs := removeCtx w.ctxs dst }
    match handlerOf K with
    | some fh => ⟨w1, .running (.run fh.1 tid fh.2)⟩
    | none =>
      match frameOf K with
      | none => ⟨w1, .fatal⟩
      | some fr =>
        let w2 := runDtors w1 fr.dtors
        match fr.base, tf with
        | some rid, some a => ⟨w2, .running (.ontopTo a none (.exitFn rid) tid)⟩
        | some _, none => ⟨w2, .fatal⟩
        | none, _ => ⟨w2, .fatal⟩

/-- resume_from_any_thread (source lines 282-304): asserts the handle is
    non-empty, captures the current thread identity (line 284), consumes
    the handle by the exchange, suspends the caller at the rep-loop jump
    as a fresh token, and jumps to the target with null data.  The probe
    branch of the rep loop (lines 293-302) is represented by the
    probeHostAnswer and probeStackAnswer cases for the resumeLoop
    suspension, since a probed context answers and bounces straight
    back. -/
def resumeAnyStep (w : World) (fr : Frame) (tid : Nat) (h : fiber_handle)
    (k : fiber_handle → Prog) : Machine :=
  match (exchangeNull h).1 with
  | none => ⟨w, .fatal⟩
  | some c =>
      ⟨{ w with next := w.next + 1, ctxs := (w.next, .resumeLoop fr tid k) :: w.ctxs },
       .running (.jumpTo c (some w.next) tid)⟩

/-- resume_from_any_thread_with (source lines 314-344): as resumeAnyStep,
    but the switch is an ontop_fcontext installing fiber_ontop with the
    user function, and the caller suspends at the drain loop. -/
def resumeAnyWithStep (w : World) (fr : Frame) (tid : Nat) (h : fiber_handle)
    (f : UserFn) (k : fiber_handle → Prog) : Machine :=
  match (exchangeNull h).1 with
  | none => ⟨w, .fatal⟩
  | some c =>
      ⟨{ w with next := w.next + 1, ctxs := (w.next, .resumeWithLoop fr tid k) :: w.ctxs },
       .running (.ontopTo c (some w.next) (.userFn f) tid)⟩

/-- create_fiber (source lines 195-218) together with the bootstrap half
    of fiber_entry (lines 104-112): allocates a stack, places the record
    on it, creates the context with fiber_entry as its body, and performs
    the bootstrap switch of line 217, which fiber_entry immediately
    answers by jumping back (line 112), parking the trampoline at its idle
    point.  The constructor (lines 240-245) wraps the returned token in a
    non-empty handle.  No user code runs. -/
def create_fiber (w : World) (fn : fiber_handle → Prog) : World × fiber_handle :=
  ({ w with next := w.next + 2,
            recs := w.next :: w.recs,
            ctxs := (w.next + 1, .entryIdle ⟨w.next, fn⟩) :: w.ctxs },
   ⟨some (w.next + 1)⟩)

/-- one step of user code: the transition of each Prog command, translated
    from the corresponding member of fiber_handle.
    ret on a fiber frame is the return of the user callable into
    fiber_entry (line 124): scope-exit destructors run, the returned
    handle must be non-empty (assert, line 128), and the trampoline
    performs the exit handoff (line 130); ret on the main frame ends the
    scenario.  resume and resumeWith (lines 275-280, 306-312) first run
    can_resume and throw std domain_error, routed to the enclosing onErr
    continuation, when it reports false.  drop is the destructor (lines
    247-258): nothing on an empty handle, otherwise an ontop_fcontext with
    fiber_unwind on the owned context, the destructor itself suspending
    until the unwound fiber hands control back. -/
def stepRun (w : World) (fr : Frame) (tid : Nat) : Prog → Machine
  | .ret h =>
      let w2 := runDtors w fr.dtors
      match fr.base with
      | none => ⟨w2, .finished h⟩
      | some rid =>
          match h.fctx_ with
          | none => ⟨w2, .fatal⟩
          | some dst => ⟨w2, .running (.ontopTo dst none (.exitFn rid) tid)⟩
  | .mkFiber fn k =>
      let wh := create_fiber w fn
      ⟨wh.1, .running (.run fr tid (k wh.2))⟩
  | .resume h k onErr =>
      match can_resume w h tid with
      | none => ⟨w, .fatal⟩
      | some (w2, h2, ok) =>
          if ok then resumeAnyStep w2 fr tid h2 k
          else ⟨w2, .running (.run fr tid (onErr h2))⟩
  | .resumeAny h k => resumeAnyStep w fr tid h k
  | .resumeAnyCatch h k hcatch =>
      match (exchangeNull h).1 with
      | none => ⟨w, .fatal⟩
      | some c =>
          ⟨{ w with next := w.next + 1,
                    ctxs := (w.next, .resumeLoopCatch fr tid k hcatch) :: w.ctxs },
           .running (.jumpTo c (some w.next) tid)⟩
  | .resumeWith h f k onErr =>
      match can_resume w h tid with
      | none => ⟨w, .fatal⟩
      | some (w2, h2, ok) =>
          if ok then resumeAnyWithStep w2 fr tid h2 f k
          else ⟨w2, .running (.run fr tid (onErr h2))⟩
  | .resumeAnyWith h f k => resumeAnyWithStep w fr tid h f k
  | .canResume h k =>
      match can_resume w h tid with
      | none => ⟨w, .fatal⟩
      | some (w2, h2, ok) => ⟨w2, .running (.run fr tid (k h2 ok))⟩
  | .canResumeAny h k =>
      match can_resume_from_any_thread w h with
      | none => ⟨w, .fatal⟩
      | some (w2, h2, ok) => ⟨w2, .running (.run fr tid (k h2 ok))⟩
  | .drop h k =>
      match (exchangeNull h).1 with
      | none => ⟨w, .running (.run fr tid k)⟩
      | some c =>
          ⟨{ w with next := w.next + 1, ctxs := (w.next, .dtorWait fr k) :: w.ctxs },
           .running (.ontopTo c (some w.next) .unwindFn tid)⟩
  | .scopedRes rid k =>
      ⟨{ w with counter := w.counter + 1, events := w.events ++ [Event.acquire rid] },
       .running (.run ⟨fr.base, rid :: fr.dtors⟩ tid k)⟩
  | .emit e k =>
      ⟨{ w with events := w.events ++ [Event.emitted e] }, .running (.run fr tid k)⟩
  | .hop t k => ⟨w, .running (.run fr t k)⟩

/-- one machine step: user code steps by stepRun, a jump in flight is
    delivered, an ontop in flight runs its installed function on the
    restored destination stack.  finished and fatal are absorbing. -/
def step (m : Machine) : Machine :=
  match m.st with
  | .finished _ => m
  | .fatal => m
  | .running c =>
    match c with
    | .run fr tid p => stepRun m.w fr tid p
    | .jumpTo dst tf tid => deliver m.w dst tf tid
    | .ontopTo dst tf fn tid =>
      match fn with
      | .exitFn rid => fiber_exit_step m.w dst rid tid
      | .unwindFn => fiber_unwind_step m.w dst tf tid
      | .userFn f => fiber_ontop_step m.w dst tf f tid

/-- iterated stepping. -/
def stepN : Nat → Machine → Machine
  | 0, m => m
  | n + 1, m => stepN n (step m)

/-- a scenario started on the original thread stack (no trampoline below
    it, no live destructors) on host thread tid0 with an empty world. -/
def initMachine (tid0 : Nat) (p : Prog) : Machine :=
  ⟨⟨[], 0, [], 0, []⟩, .running (.run ⟨none, []⟩ tid0 p)⟩

/-- the suspensions a user-held handle can name (every one except the
    destructor wait, which never escapes): exactly those that answer
    probes. -/
def probeable : Kont → Bool
  | .dtorWait _ _ => false
  | _ => true

/-- one probe call, selected by flag: can_resume for hosting_thread,
    can_resume_from_any_thread for side_stack; only the refreshed handle
    is kept. -/
def probeOne (f : Flag) (w : World) (h : fiber_handle) (tid : Nat) :
    Option (World × fiber_handle) :=
  match f with
  | .hosting_thread =>
      match can_resume w h tid with
      | none => none
      | some r => some (r.1, r.2.1)
  | .side_stack =>
      match can_resume_from_any_thread w h with
      | none => none
      | some r => some (r.1, r.2.1)

/-- any number of consecutive probe calls of either kind. -/
def probeSeq : List Flag → World → fiber_handle → Nat → Option (World × fiber_handle)
  | [], w, h, _ => some (w, h)
  | f :: fs, w, h, tid =>
      match probeOne f w h tid with
      | none => none
      | some (w2, h2) => probeSeq fs w2 h2 tid

/-- whether the machine is about to run fiber_unwind on a restored stack,
    that is, whether the internal unwind signal is in flight. -/
def unwindPending (m : Machine) : Bool :=
  match m.st with
  | .running (.ontopTo _ _ .unwindFn _) => true
  | _ => false

/-- whether the running user code is destroying a non-empty handle (the
    only operation that installs the forced-unwind callback). -/
def dropAt (m : Machine) : Bool :=
  match m.st with
  | .running (.run _ _ (.drop ⟨some _⟩ _)) => true
  | _ => false

/-- whether the machine is performing the self-freeing exit handoff that
    the trampoline catch issues, or has died of a protocol violation:
    the only two continuations of an in-flight unwind signal. -/
def exitHandoffOrFatal (m : Machine) : Bool :=
  match m.st with
  | .fatal => true
  | .running (.ontopTo _ _ (.exitFn _) _) => true
  | _ => false

/-- whether the context an in-flight unwind signal is aimed at has no
    live user catch-all handler on its stack (a dead token counts: the
    signal then dies with the process, not in user hands).  For machines
    with no unwind in flight this is vacuously true. -/
def noHandlerAt (m : Machine) : Bool :=
  match m.st with
  | .running (.ontopTo dst _ .unwindFn _) =>
      match lookupCtx m.w.ctxs dst with
      | some K => (handlerOf K).isNone
      | none => true
  | _ => true

/-! Helper lemmas about the embedding. -/

theorem runDtors_recs (ds : List Nat) :
    ∀ w : World, (runDtors w ds).recs = w.recs := by
  induction ds with
  | nil => intro w; simp [runDtors]
  | cons d ds ih => intro w; simp [runDtors, ih]

theorem runDtors_ctxs (ds : List Nat) :
    ∀ w : World, (runDtors w ds).ctxs = w.ctxs := by
  induction ds with
  | nil => intro w; simp [runDtors]
  | cons d ds ih => intro w; simp [runDtors, ih]

theorem lookupCtx_head (c : Nat) (K : Kont) (rest : List (Nat × Kont)) :
    lookupCtx ((c, K) :: rest) c = some K := by
  simp [lookupCtx]

theorem eraseAll_not_mem (l : List Nat) (r0 : Nat) : r0 ∉ eraseAll l r0 := by
  induction l with
  | nil => simp [eraseAll]
  | cons r rest ih =>
      by_cases h : r = r0
      · simpa [eraseAll, h] using ih
      · simp only [eraseAll, h, if_false, List.mem_cons]
        intro hc
        rcases hc with hc | hc
        · exact h hc.symm
        · exact ih hc

/-- C3: for every callable, constructing a fiber handle from it allocates
    a stack and places the record on it (a fresh record id is added to the
    live records), creates the context and performs the bootstrap switch
    that parks the trampoline at its idle point (the fresh token is
    suspended at entryIdle), and the constructor returns a non-empty
    handle to it; the event trace is unchanged, so no user code (the
    callable) has run. -/
theorem claim_C3 (w : World) (fr : Frame) (tid : Nat)
    (fn : fiber_handle → Prog) (k : fiber_handle → Prog) :
    stepRun w fr tid (.mkFiber fn k) =
      ⟨{ w with next := w.next + 2,
                recs := w.next :: w.recs,
                ctxs := (w.next + 1, .entryIdle ⟨w.next, fn⟩) :: w.ctxs },
       .running (.run fr tid (k ⟨some (w.next + 1)⟩))⟩
    ∧ fiber_handle.nonEmpty ⟨some (w.next + 1)⟩ = true
    ∧ lookupCtx ((w.next + 1, Kont.entryIdle ⟨w.next, fn⟩) :: w.ctxs) (w.next + 1)
        = some (.entryIdle ⟨w.next, fn⟩)
    ∧ (create_fiber w fn).1.events = w.events := by
  refine ⟨rfl, rfl, lookupCtx_head _ _ _, rfl⟩

/-- C1: every consuming operation goes through the exchange that leaves
    the consumed handle empty (first part); a context that suspends by
    resuming another is parked live in the world and its fresh token is
    the transfer delivered to the resumed side, so the handle produced
    there is non-empty while the suspended context has not terminated
    (second part); and the exit handoff of a terminating fiber delivers
    the null transfer, so the resumer of a callable returning for the last
    time receives the empty handle (third part). -/
theorem claim_C1 :
    (∀ h : fiber_handle, (exchangeNull h).2.fctx_ = none)
    ∧
    (∀ (w : World) (fr : Frame) (tid : Nat) (c : Nat) (k : fiber_handle → Prog),
      resumeAnyStep w fr tid ⟨some c⟩ k =
        ⟨{ w with next := w.next + 1,
                  ctxs := (w.next, .resumeLoop fr tid k) :: w.ctxs },
         .running (.jumpTo c (some w.next) tid)⟩
      ∧ lookupCtx ((w.next, Kont.resumeLoop fr tid k) :: w.ctxs) w.next
          = some (.resumeLoop fr tid k))
    ∧
    (∀ (w : World) (dst : Nat) (rid : Nat) (tid : Nat) (fr2 : Frame) (t2 : Nat)
        (k2 : fiber_handle → Prog),
      lookupCtx w.ctxs dst = some (.resumeLoop fr2 t2 k2) →
      fiber_exit_step w dst rid tid =
        ⟨⟨removeCtx w.ctxs dst, w.next, eraseAll w.recs rid, w.counter,
          w.events ++ [Event.freed rid]⟩,
         .running (.run fr2 tid (k2 ⟨none⟩))⟩
      ∧ fiber_handle.nonEmpty ⟨none⟩ = false) := by
  refine ⟨fun h => rfl, fun w fr tid c k => ⟨rfl, lookupCtx_head _ _ _⟩, ?_⟩
  intro w dst rid tid fr2 t2 k2 hl
  refine ⟨?_, rfl⟩
  simp only [fiber_exit_step, deliver, hl]

/-- witness for C1 at a concrete input: a world whose token 5 is a context
    suspended in resume_from_any_thread; the exit handoff of a fiber with
    record 3 delivers the empty handle there and frees the record. -/
theorem claim_C1_witness :
    lookupCtx [(5, Kont.resumeLoop ⟨none, []⟩ 0 Prog.ret)] 5
      = some (.resumeLoop ⟨none, []⟩ 0 Prog.ret)
    ∧ (fiber_exit_step ⟨[(5, Kont.resumeLoop ⟨none, []⟩ 0 Prog.ret)], 6, [3], 0, []⟩ 5 3 0 =
        ⟨⟨removeCtx [(5, Kont.resumeLoop ⟨none, []⟩ 0 Prog.ret)] 5, 6, eraseAll [3] 3, 0,
          [] ++ [Event.freed 3]⟩,
         .running (.run ⟨none, []⟩ 0 (Prog.ret ⟨none⟩))⟩
      ∧ fiber_handle.nonEmpty ⟨none⟩ = false) :=
  ⟨rfl, claim_C1.2.2 ⟨[(5, Kont.resumeLoop ⟨none, []⟩ 0 Prog.ret)], 6, [3], 0, []⟩
    5 3 0 ⟨none, []⟩ 0 Prog.ret rfl⟩

theorem probeable_host (K : Kont) (h : probeable K = true) :
    ∃ rep, probeHostAnswer K = some rep := by
  cases K with
  | entryIdle rec => exact ⟨none, rfl⟩
  | resumeLoop fr t k => exact ⟨some t, rfl⟩
  | resumeWithLoop fr t k => exact ⟨some t, rfl⟩
  | resumeLoopCatch fr t k hk => exact ⟨some t, rfl⟩
  | dtorWait fr k => simp [probeable] at h

theorem probeable_stack (K : Kont) (h : probeable K = true) :
    ∃ rep, probeStackAnswer K = some rep := by
  cases K with
  | entryIdle rec => exact ⟨fiber_uses_side_stack true, rfl⟩
  | resumeLoop fr t k => exact ⟨fiber_uses_side_stack fr.base.isSome, rfl⟩
  | resumeWithLoop fr t k => exact ⟨fiber_uses_side_stack fr.base.isSome, rfl⟩
  | resumeLoopCatch fr t k hk => exact ⟨fiber_uses_side_stack fr.base.isSome, rfl⟩
  | dtorWait fr k => simp [probeable] at h

theorem can_resume_spec (w : World) (c : Nat) (K : Kont) (tid : Nat) (rep : ThreadIdent)
    (hl : lookupCtx w.ctxs c = some K) (hp : probeHostAnswer K = some rep) :
    can_resume w ⟨some c⟩ tid =
      some ({ w with next := w.next + 1, ctxs := (w.next, K) :: removeCtx w.ctxs c },
            ⟨some w.next⟩,
            (some tid == rep) || ((none : ThreadIdent) == rep)) := by
  simp only [can_resume, exchangeNull, hl, hp]

theorem can_resume_any_spec (w : World) (c : Nat) (K : Kont) (rep : Bool)
    (hl : lookupCtx w.ctxs c = some K) (hp : probeStackAnswer K = some rep) :
    can_resume_from_any_thread w ⟨some c⟩ =
      some ({ w with next := w.next + 1, ctxs := (w.next, K) :: removeCtx w.ctxs c },
            ⟨some w.next⟩, rep) := by
  simp only [can_resume_from_any_thread, exchangeNull, hl, hp]

/-- C4: for a non-empty handle naming any user-reachable suspension, any
    number of consecutive probe calls of either kind runs no user code of
    the fiber (the event trace, the counter and the live records are
    unchanged), and after each probe the handle is restored to non-empty,
    naming a context suspended at exactly the same point, so it can
    subsequently be resumed. -/
theorem claim_C4 (fs : List Flag) :
    ∀ (w : World) (c : Nat) (K : Kont) (tid : Nat),
      lookupCtx w.ctxs c = some K → probeable K = true →
      ∃ (w2 : World) (c2 : Nat),
        probeSeq fs w ⟨some c⟩ tid = some (w2, ⟨some c2⟩)
        ∧ w2.events = w.events ∧ w2.counter = w.counter ∧ w2.recs = w.recs
        ∧ lookupCtx w2.ctxs c2 = some K := by
  induction fs with
  | nil =>
      intro w c K tid hl _
      exact ⟨w, c, rfl, rfl, rfl, rfl, hl⟩
  | cons f fs ih =>
      intro w c K tid hl hK
      cases f with
      | hosting_thread =>
          obtain ⟨rep, hp⟩ := probeable_host K hK
          have h1 : probeOne .hosting_thread w ⟨some c⟩ tid =
              some ({ w with next := w.next + 1, ctxs := (w.next, K) :: removeCtx w.ctxs c },
                    ⟨some w.next⟩) := by
            simp only [probeOne, can_resume_spec w c K tid rep hl hp]
          simp only [probeSeq, h1]
          exact ih _ w.next K tid (lookupCtx_head _ _ _) hK
      | side_stack =>
          obtain ⟨rep, hp⟩ := probeable_stack K hK
          have h1 : probeOne .side_stack w ⟨some c⟩ tid =
              some ({ w with next := w.next + 1, ctxs := (w.next, K) :: removeCtx w.ctxs c },
                    ⟨some w.next⟩) := by
            simp only [probeOne, can_resume_any_spec w c K rep hl hp]
          simp only [probeSeq, h1]
          exact ih _ w.next K tid (lookupCtx_head _ _ _) hK

/-- witness for C4 at a concrete input: two probes, one of each kind, on a
    handle naming a fiber parked at the trampoline idle point. -/
theorem claim_C4_witness :
    lookupCtx [(5, Kont.entryIdle ⟨3, Prog.ret⟩)] 5 = some (.entryIdle ⟨3, Prog.ret⟩)
    ∧ probeable (.entryIdle ⟨3, Prog.ret⟩) = true
    ∧ ∃ (w2 : World) (c2 : Nat),
        probeSeq [.hosting_thread, .side_stack]
            ⟨[(5, Kont.entryIdle ⟨3, Prog.ret⟩)], 6, [3], 0, []⟩ ⟨some 5⟩ 0
          = some (w2, ⟨some c2⟩)
        ∧ w2.events = (⟨[(5, Kont.entryIdle ⟨3, Prog.ret⟩)], 6, [3], 0, []⟩ : World).events
        ∧ w2.counter = (⟨[(5, Kont.entryIdle ⟨3, Prog.ret⟩)], 6, [3], 0, []⟩ : World).counter
        ∧ w2.recs = (⟨[(5, Kont.entryIdle ⟨3, Prog.ret⟩)], 6, [3], 0, []⟩ : World).recs
        ∧ lookupCtx w2.ctxs c2 = some (.entryIdle ⟨3, Prog.ret⟩) :=
  ⟨rfl, rfl,
    claim_C4 [.hosting_thread, .side_stack]
      ⟨[(5, Kont.entryIdle ⟨3, Prog.ret⟩)], 6, [3], 0, []⟩ 5
      (.entryIdle ⟨3, Prog.ret⟩) 0 rfl rfl⟩

/-- C5: can_resume on a non-empty handle performs one probe round trip
    carrying the host-affinity tag, does not advance the user code of the
    fiber (the event trace of the produced world is unchanged), restores
    the handle to a fresh token naming the same suspension, and returns
    true if and only if the affinity reported back is the unbound default
    identity or the identity of the current host thread. -/
theorem claim_C5 (w : World) (c : Nat) (K : Kont) (tid : Nat) (rep : ThreadIdent)
    (hl : lookupCtx w.ctxs c = some K) (hp : probeHostAnswer K = some rep) :
    can_resume w ⟨some c⟩ tid =
      some ({ w with next := w.next + 1, ctxs := (w.next, K) :: removeCtx w.ctxs c },
            ⟨some w.next⟩,
            (some tid == rep) || ((none : ThreadIdent) == rep))
    ∧ ({ w with next := w.next + 1,
                ctxs := (w.next, K) :: removeCtx w.ctxs c } : World).events = w.events
    ∧ lookupCtx ((w.next, K) :: removeCtx w.ctxs c) w.next = some K
    ∧ ((((some tid == rep) || ((none : ThreadIdent) == rep)) = true)
        ↔ (rep = none ∨ rep = some tid)) := by
  refine ⟨can_resume_spec w c K tid rep hl hp, rfl, lookupCtx_head _ _ _, ?_⟩
  cases rep with
  | none => simp
  | some t =>
      simp only [Bool.or_eq_true, beq_iff_eq]
      constructor
      · rintro (h | h)
        · exact Or.inr h.symm
        · exact absurd h (by simp)
      · rintro (h | h)
        · exact absurd h (by simp)
        · exact Or.inl h.symm

/-- witness for C5 at a concrete input: probing a fiber suspended in a
    resume call whose captured thread identity is 4, from host thread 4. -/
theorem claim_C5_witness :
    lookupCtx [(5, Kont.resumeLoop ⟨none, []⟩ 4 Prog.ret)] 5
      = some (.resumeLoop ⟨none, []⟩ 4 Prog.ret)
    ∧ probeHostAnswer (.resumeLoop ⟨none, []⟩ 4 Prog.ret) = some (some 4)
    ∧ (can_resume ⟨[(5, Kont.resumeLoop ⟨none, []⟩ 4 Prog.ret)], 6, [], 0, []⟩ ⟨some 5⟩ 4 =
        some ({ (⟨[(5, Kont.resumeLoop ⟨none, []⟩ 4 Prog.ret)], 6, [], 0, []⟩ : World) with
                  next := 6 + 1,
                  ctxs := (6, Kont.resumeLoop ⟨none, []⟩ 4 Prog.ret)
                    :: removeCtx [(5, Kont.resumeLoop ⟨none, []⟩ 4 Prog.ret)] 5 },
              ⟨some 6⟩,
              ((some 4 == some 4) || ((none : ThreadIdent) == some 4)))) :=
  ⟨rfl, rfl,
    (claim_C5 ⟨[(5, Kont.resumeLoop ⟨none, []⟩ 4 Prog.ret)], 6, [], 0, []⟩ 5
      (.resumeLoop ⟨none, []⟩ 4 Prog.ret) 4 (some 4) rfl rfl).1⟩

/-- C6: resume on a non-empty handle fails with the catchable affinity
    error exactly when the can_resume predicate is false, which happens
    precisely when the reported affinity is a real thread identity other
    than the current host thread; the failure leaves no other effect (the
    target is merely re-parked at the same suspension under a fresh token,
    stored back in the handle given to the error continuation), while
    resume_from_any_thread performs the same consuming switch in that very
    scenario without the affinity precondition and succeeds; and when the
    precondition holds resume proceeds to the identical switch. -/
theorem claim_C6 (w : World) (fr : Frame) (tid : Nat) (c : Nat) (K : Kont)
    (rep : ThreadIdent) (k : fiber_handle → Prog) (onErr : fiber_handle → Prog)
    (hl : lookupCtx w.ctxs c = some K) (hp : probeHostAnswer K = some rep) :
    ((rep ≠ none ∧ rep ≠ some tid) →
      stepRun w fr tid (.resume ⟨some c⟩ k onErr) =
        ⟨{ w with next := w.next + 1, ctxs := (w.next, K) :: removeCtx w.ctxs c },
         .running (.run fr tid (onErr ⟨some w.next⟩))⟩)
    ∧
    (stepRun w fr tid (.resumeAny ⟨some c⟩ k) =
      ⟨{ w with next := w.next + 1, ctxs := (w.next, .resumeLoop fr tid k) :: w.ctxs },
       .running (.jumpTo c (some w.next) tid)⟩)
    ∧
    ((rep = none ∨ rep = some tid) →
      stepRun w fr tid (.resume ⟨some c⟩ k onErr) =
        ⟨{ w with next := w.next + 2,
                  ctxs := (w.next + 1, .resumeLoop fr tid k)
                    :: (w.next, K) :: removeCtx w.ctxs c },
         .running (.jumpTo w.next (some (w.next + 1)) tid)⟩) := by
  refine ⟨?_, rfl, ?_⟩
  · intro hbad
    have hok : ((some tid == rep) || ((none : ThreadIdent) == rep)) = false := by
      cases rep with
      | none => exact absurd rfl hbad.1
      | some t =>
          simp only [Bool.or_eq_false_iff, beq_eq_false_iff_ne, ne_eq]
          exact ⟨fun h => hbad.2 (by rw [h]), fun h => Option.noConfusion h⟩
    simp only [stepRun, can_resume_spec w c K tid rep hl hp, hok]
    rfl
  · intro hgood
    have hok : ((some tid == rep) || ((none : ThreadIdent) == rep)) = true := by
      rcases hgood with h | h
      · subst h; simp
      · subst h; simp
    simp only [stepRun, can_resume_spec w c K tid rep hl hp, hok]
    rfl

/-- witness for C6 at a concrete input: a fiber suspended in a resume call
    that captured thread 0 is probed from host thread 1: resume takes the
    error branch. -/
theorem claim_C6_witness :
    lookupCtx [(5, Kont.resumeLoop ⟨none, []⟩ 0 Prog.ret)] 5
      = some (.resumeLoop ⟨none, []⟩ 0 Prog.ret)
    ∧ probeHostAnswer (.resumeLoop ⟨none, []⟩ 0 Prog.ret) = some (some 0)
    ∧ ((some 0 : ThreadIdent) ≠ none ∧ (some 0 : ThreadIdent) ≠ some 1)
    ∧ stepRun ⟨[(5, Kont.resumeLoop ⟨none, []⟩ 0 Prog.ret)], 6, [], 0, []⟩ ⟨none, []⟩ 1
        (.resume ⟨some 5⟩ Prog.ret Prog.ret) =
      ⟨{ (⟨[(5, Kont.resumeLoop ⟨none, []⟩ 0 Prog.ret)], 6, [], 0, []⟩ : World) with
           next := 6 + 1,
           ctxs := (6, Kont.resumeLoop ⟨none, []⟩ 0 Prog.ret)
             :: removeCtx [(5, Kont.resumeLoop ⟨none, []⟩ 0 Prog.ret)] 5 },
       .running (.run ⟨none, []⟩ 1 (Prog.ret ⟨some 6⟩))⟩ :=
  ⟨rfl, rfl, ⟨by decide, by decide⟩,
    (claim_C6 ⟨[(5, Kont.resumeLoop ⟨none, []⟩ 0 Prog.ret)], 6, [], 0, []⟩ ⟨none, []⟩ 1 5
      (.resumeLoop ⟨none, []⟩ 0 Prog.ret) (some 0) Prog.ret Prog.ret rfl rfl).1
      ⟨by decide, by decide⟩⟩

/-- C10: the parked trampoline answers every hosting-thread probe with the
    default (unbound) identity, whatever thread created or last ran the
    fiber, so can_resume returns true on every host thread, and for a
    fiber suspended at the idle point resume never reaches its affinity
    error branch: it always proceeds to the consuming switch. -/
theorem claim_C10 (w : World) (c : Nat) (rec : fiber_record) (tid : Nat) (fr : Frame)
    (k : fiber_handle → Prog) (onErr : fiber_handle → Prog)
    (hl : lookupCtx w.ctxs c = some (.entryIdle rec)) :
    probeHostAnswer (.entryIdle rec) = some none
    ∧ can_resume w ⟨some c⟩ tid =
        some ({ w with next := w.next + 1,
                       ctxs := (w.next, .entryIdle rec) :: removeCtx w.ctxs c },
              ⟨some w.next⟩, true)
    ∧ stepRun w fr tid (.resume ⟨some c⟩ k onErr) =
        ⟨{ w with next := w.next + 2,
                  ctxs := (w.next + 1, .resumeLoop fr tid k)
                    :: (w.next, .entryIdle rec) :: removeCtx w.ctxs c },
         .running (.jumpTo w.next (some (w.next + 1)) tid)⟩ := by
  have hb : ((some tid == (none : ThreadIdent)) || ((none : ThreadIdent) == none)) = true := by
    simp
  refine ⟨rfl, ?_, ?_⟩
  · have h := can_resume_spec w c (.entryIdle rec) tid none hl rfl
    rwa [hb] at h
  · simp only [stepRun, can_resume_spec w c (.entryIdle rec) tid none hl rfl, hb]
    rfl

/-- witness for C10 at a concrete input. -/
theorem claim_C10_witness :
    lookupCtx [(5, Kont.entryIdle ⟨3, Prog.ret⟩)] 5 = some (.entryIdle ⟨3, Prog.ret⟩)
    ∧ probeHostAnswer (.entryIdle ⟨3, Prog.ret⟩) = some none
    ∧ can_resume ⟨[(5, Kont.entryIdle ⟨3, Prog.ret⟩)], 6, [3], 0, []⟩ ⟨some 5⟩ 9 =
        some ({ (⟨[(5, Kont.entryIdle ⟨3, Prog.ret⟩)], 6, [3], 0, []⟩ : World) with
                  next := 6 + 1,
                  ctxs := (6, Kont.entryIdle ⟨3, Prog.ret⟩)
                    :: removeCtx [(5, Kont.entryIdle ⟨3, Prog.ret⟩)] 5 },
              ⟨some 6⟩, true) :=
  ⟨rfl,
    (claim_C10 ⟨[(5, Kont.entryIdle ⟨3, Prog.ret⟩)], 6, [3], 0, []⟩ 5 ⟨3, Prog.ret⟩ 9
      ⟨none, []⟩ Prog.ret Prog.ret rfl).1,
    (claim_C10 ⟨[(5, Kont.entryIdle ⟨3, Prog.ret⟩)], 6, [3], 0, []⟩ 5 ⟨3, Prog.ret⟩ 9
      ⟨none, []⟩ Prog.ret Prog.ret rfl).2.1⟩

/-- C7: when a user callable running on a fiber returns a non-empty
    handle, the trampoline initiates the execute-on-top exit handoff to
    the designated destination with the cleanup callback bound to its own
    record; at the moment control leaves the dying stack the record is
    still allocated (the records list is untouched by the first step), and
    no token for the terminating context is ever minted (the suspended
    contexts are untouched), so no handle to the terminated context can
    exist afterwards; only the next step, running fiber_exit on the
    restored destination stack, removes the record and frees the stack,
    and the destination resumes with the null transfer. -/
theorem claim_C7 (w : World) (rid : Nat) (ds : List Nat) (tid : Nat) (dst : Nat) :
    (stepRun w ⟨some rid, ds⟩ tid (.ret ⟨some dst⟩) =
       ⟨runDtors w ds, .running (.ontopTo dst none (.exitFn rid) tid)⟩)
    ∧ (runDtors w ds).recs = w.recs
    ∧ (runDtors w ds).ctxs = w.ctxs
    ∧ (∀ (w2 : World) (fr2 : Frame) (t2 : Nat) (k2 : fiber_handle → Prog),
        lookupCtx w2.ctxs dst = some (.resumeLoop fr2 t2 k2) →
        fiber_exit_step w2 dst rid tid =
          ⟨⟨removeCtx w2.ctxs dst, w2.next, eraseAll w2.recs rid, w2.counter,
            w2.events ++ [Event.freed rid]⟩,
           .running (.run fr2 tid (k2 ⟨none⟩))⟩)
    ∧ (∀ l : List Nat, rid ∉ eraseAll l rid) := by
  refine ⟨rfl, runDtors_recs _ _, runDtors_ctxs _ _, ?_, fun l => eraseAll_not_mem l rid⟩
  intro w2 fr2 t2 k2 hl
  simp only [fiber_exit_step, deliver, hl]

/-- witness for C7 at a concrete input. -/
theorem claim_C7_witness :
    lookupCtx [(9, Kont.resumeLoop ⟨none, []⟩ 0 Prog.ret)] 9
      = some (.resumeLoop ⟨none, []⟩ 0 Prog.ret)
    ∧ fiber_exit_step ⟨[(9, Kont.resumeLoop ⟨none, []⟩ 0 Prog.ret)], 10, [2], 0, []⟩ 9 2 0 =
        ⟨⟨removeCtx [(9, Kont.resumeLoop ⟨none, []⟩ 0 Prog.ret)] 9, 10, eraseAll [2] 2, 0,
          [] ++ [Event.freed 2]⟩,
         .running (.run ⟨none, []⟩ 0 (Prog.ret ⟨none⟩))⟩ :=
  ⟨rfl,
    (claim_C7 ⟨[(9, Kont.resumeLoop ⟨none, []⟩ 0 Prog.ret)], 10, [2], 0, []⟩ 2 [] 0 9).2.2.2.1
      ⟨[(9, Kont.resumeLoop ⟨none, []⟩ 0 Prog.ret)], 10, [2], 0, []⟩ ⟨none, []⟩ 0 Prog.ret rfl⟩

/-- C8: resume_from_any_thread_with parks the caller at the drain loop and
    installs fiber_ontop carrying the user function on the target (first
    part); fiber_ontop runs that function on the restored destination
    stack immediately after the switch and before the destination
    continues, passing it a handle made from the token of the source
    context being left, and the handle the function returns becomes the
    effective transfer the destination resumes with: a parked trampoline
    dispatches its callable with that handle (second part), and a context
    suspended in a resume_with call returns it from that call, so it is
    the counterpart that becomes the final result of the resume (third
    part). -/
theorem claim_C8 (w : World) (fr : Frame) (tid : Nat) (c : Nat) (f : UserFn)
    (k : fiber_handle → Prog) :
    (stepRun w fr tid (.resumeAnyWith ⟨some c⟩ f k) =
      ⟨{ w with next := w.next + 1, ctxs := (w.next, .resumeWithLoop fr tid k) :: w.ctxs },
       .running (.ontopTo c (some w.next) (.userFn f) tid)⟩)
    ∧
    (∀ (w1 : World) (src : Fcontext) (rec : fiber_record),
      lookupCtx w1.ctxs c = some (.entryIdle rec) →
      fiber_ontop_step w1 c src f tid =
        ⟨⟨removeCtx w1.ctxs c, w1.next, w1.recs, w1.counter,
          w1.events ++ [Event.ontopRan f.tag src] ++ [Event.dispatched rec.rid]⟩,
         .running (.run ⟨some rec.rid, []⟩ tid (rec.fn ⟨(f.body ⟨src⟩).fctx_⟩))⟩)
    ∧
    (∀ (w1 : World) (c1 : Nat) (fr1 : Frame) (t1 : Nat) (k1 : fiber_handle → Prog)
        (src : Fcontext),
      lookupCtx w1.ctxs c1 = some (.resumeWithLoop fr1 t1 k1) →
      fiber_ontop_step w1 c1 src f tid =
        ⟨⟨removeCtx w1.ctxs c1, w1.next, w1.recs, w1.counter,
          w1.events ++ [Event.ontopRan f.tag src]⟩,
         .running (.run fr1 tid (k1 ⟨(f.body ⟨src⟩).fctx_⟩))⟩) := by
  refine ⟨rfl, ?_, ?_⟩
  · intro w1 src rec hl
    simp only [fiber_ontop_step, deliver, hl]
  · intro w1 c1 fr1 t1 k1 src hl
    simp only [fiber_ontop_step, deliver, hl]

/-- witness for C8 at a concrete input: the ontop function returns the
    handle it received, so the dispatched callable receives the source
    token itself. -/
theorem claim_C8_witness :
    lookupCtx [(5, Kont.entryIdle ⟨3, Prog.ret⟩)] 5 = some (.entryIdle ⟨3, Prog.ret⟩)
    ∧ fiber_ontop_step ⟨[(5, Kont.entryIdle ⟨3, Prog.ret⟩)], 6, [3], 0, []⟩ 5 (some 4)
        ⟨77, fun h => h⟩ 0 =
      ⟨⟨removeCtx [(5, Kont.entryIdle ⟨3, Prog.ret⟩)] 5, 6, [3], 0,
        [] ++ [Event.ontopRan 77 (some 4)] ++ [Event.dispatched 3]⟩,
       .running (.run ⟨some 3, []⟩ 0
         (Prog.ret ⟨((⟨77, fun h => h⟩ : UserFn).body ⟨some 4⟩).fctx_⟩))⟩ :=
  ⟨rfl,
    (claim_C8 ⟨[(5, Kont.entryIdle ⟨3, Prog.ret⟩)], 6, [3], 0, []⟩ ⟨none, []⟩ 0 5
      ⟨77, fun h => h⟩ Prog.ret).2.1
      ⟨[(5, Kont.entryIdle ⟨3, Prog.ret⟩)], 6, [3], 0, []⟩ (some 4) ⟨3, Prog.ret⟩ rfl⟩

theorem unwindPending_deliver (w : World) (dst : Nat) (tf : Fcontext) (tid : Nat) :
    unwindPending (deliver w dst tf tid) = false := by
  unfold deliver
  cases lookupCtx w.ctxs dst with
  | none => rfl
  | some K => cases K <;> rfl

theorem unwindPending_unwind_step (w : World) (dst : Nat) (tf : Fcontext) (tid : Nat) :
    unwindPending (fiber_unwind_step w dst tf tid) = false := by
  unfold fiber_unwind_step
  cases lookupCtx w.ctxs dst with
  | none => rfl
  | some K =>
      cases hh : handlerOf K with
      | some fh => simp only [hh]; rfl
      | none =>
          simp only [hh]
          cases hf : frameOf K with
          | none => simp only [hf]; rfl
          | some fr =>
              simp only [hf]
              obtain ⟨base, ds⟩ := fr
              cases base <;> cases tf <;> rfl

theorem unwindPending_resumeAnyStep (w : World) (fr : Frame) (tid : Nat)
    (h : fiber_handle) (k : fiber_handle → Prog) :
    unwindPending (resumeAnyStep w fr tid h k) = false := by
  unfold resumeAnyStep
  obtain ⟨hf⟩ := h
  cases hf <;> rfl

theorem unwindPending_resumeAnyWithStep (w : World) (fr : Frame) (tid : Nat)
    (h : fiber_handle) (f : UserFn) (k : fiber_handle → Prog) :
    unwindPending (resumeAnyWithStep w fr tid h f k) = false := by
  unfold resumeAnyWithStep
  obtain ⟨hf⟩ := h
  cases hf <;> rfl

theorem exitHandoffOrFatal_unwind_noHandler (w : World) (dst : Nat) (tf : Fcontext)
    (tid : Nat) (hh : ∀ K, lookupCtx w.ctxs dst = some K → handlerOf K = none) :
    exitHandoffOrFatal (fiber_unwind_step w dst tf tid) = true := by
  unfold fiber_unwind_step
  cases hK : lookupCtx w.ctxs dst with
  | none => rfl
  | some K =>
      have h1 : handlerOf K = none := hh K hK
      simp only [h1]
      cases hf : frameOf K with
      | none => simp only [hf]; rfl
      | some fr =>
          simp only [hf]
          obtain ⟨base, ds⟩ := fr
          cases base <;> cases tf <;> rfl

/-- C9 (amended): the unwind signal is raised only by the forced-unwind
    callback, but it is not unobservable.  First part: a machine step puts
    the signal in flight exactly when the running user code is destroying
    a non-empty handle, so the signal is raised only by the forced-unwind
    callback that the destructor installs - no other operation, including
    every resume, probe and exit path, ever produces it.  Second part:
    when the signal is in flight towards a context with no live user
    catch-all on its stack, one step later it has been consumed: either
    the unwound stack bottoms out at the trampoline catch, which
    immediately performs the ordinary self-freeing exit handoff, or the
    machine is dead of a protocol violation, and in neither case is the
    signal handed to any user continuation.  Third part: the caveat the
    original claim omits - the signal is an ordinary exception, so a user
    catch-all live at the suspension point intercepts and satisfies it:
    the unwind is delivered to the user handler, which runs in place of
    the trampoline catch (see the counterexample for a concrete
    interception). -/
theorem claim_C9 :
    (∀ m : Machine, unwindPending (step m) = dropAt m)
    ∧ (∀ m : Machine, unwindPending m = true → noHandlerAt m = true →
        exitHandoffOrFatal (step m) = true)
    ∧ (∀ (w : World) (dst : Nat) (tf : Fcontext) (tid : Nat) (fr : Frame) (t : Nat)
        (k : fiber_handle → Prog) (hk : Prog),
        lookupCtx w.ctxs dst = some (.resumeLoopCatch fr t k hk) →
        fiber_unwind_step w dst tf tid =
          ⟨{ w with ctxs := removeCtx w.ctxs dst }, .running (.run fr tid hk)⟩) := by
  refine ⟨?_, ?_, ?_⟩
  · intro m
    obtain ⟨w, st⟩ := m
    cases st with
    | finished h => rfl
    | fatal => rfl
    | running c =>
      cases c with
      | jumpTo dst tf tid =>
          exact unwindPending_deliver w dst tf tid
      | ontopTo dst tf fn tid =>
          cases fn with
          | exitFn rid => exact unwindPending_deliver _ dst none tid
          | unwindFn => exact unwindPending_unwind_step w dst tf tid
          | userFn f => exact unwindPending_deliver _ dst _ tid
      | run fr tid p =>
        cases p with
        | ret h =>
            show unwindPending (stepRun w fr tid (.ret h)) = false
            simp only [stepRun]
            cases fr.base with
            | none => rfl
            | some rid => cases h.fctx_ <;> rfl
        | mkFiber fn k => rfl
        | resume h k onErr =>
            show unwindPending (stepRun w fr tid (.resume h k onErr)) = false
            simp only [stepRun]
            cases can_resume w h tid with
            | none => rfl
            | some r =>
                obtain ⟨w2, h2, ok⟩ := r
                cases ok with
                | false => rfl
                | true =>
                    simpa using unwindPending_resumeAnyStep w2 fr tid h2 k
        | resumeAny h k => exact unwindPending_resumeAnyStep w fr tid h k
        | resumeAnyCatch h k hcatch =>
            obtain ⟨hf⟩ := h
            cases hf <;> rfl
        | resumeWith h f k onErr =>
            show unwindPending (stepRun w fr tid (.resumeWith h f k onErr)) = false
            simp only [stepRun]
            cases can_resume w h tid with
            | none => rfl
            | some r =>
                obtain ⟨w2, h2, ok⟩ := r
                cases ok with
                | false => rfl
                | true =>
                    simpa using unwindPending_resumeAnyWithStep w2 fr tid h2 f k
        | resumeAnyWith h f k => exact unwindPending_resumeAnyWithStep w fr tid h f k
        | canResume h k =>
            show unwindPending (stepRun w fr tid (.canResume h k)) = false
            simp only [stepRun]
            cases can_resume w h tid with
            | none => rfl
            | some r => rfl
        | canResumeAny h k =>
            show unwindPending (stepRun w fr tid (.canResumeAny h k)) = false
            simp only [stepRun]
            cases can_resume_from_any_thread w h with
            | none => rfl
            | some r => rfl
        | drop h k =>
            obtain ⟨hf⟩ := h
            cases hf <;> rfl
        | scopedRes rid k => rfl
        | emit e k => rfl
        | hop t k => rfl
  · intro m hm hnh
    obtain ⟨w, st⟩ := m
    cases st with
    | finished h => exact absurd hm (by simp [unwindPending])
    | fatal => exact absurd hm (by simp [unwindPending])
    | running c =>
      cases c with
      | run fr tid p => exact absurd hm (by simp [unwindPending])
      | jumpTo dst tf tid => exact absurd hm (by simp [unwindPending])
      | ontopTo dst tf fn tid =>
          cases fn with
          | exitFn rid => exact absurd hm (by simp [unwindPending])
          | userFn f => exact absurd hm (by simp [unwindPending])
          | unwindFn =>
              refine exitHandoffOrFatal_unwind_noHandler w dst tf tid ?_
              intro K hK
              simp only [noHandlerAt, hK] at hnh
              exact Option.isNone_iff_eq_none.mp hnh
  · intro w dst tf tid fr t k hk hl
    simp only [fiber_unwind_step, hl, handlerOf]

/-- counterexample for C9 as originally claimed: a concrete machine in
    which the unwind signal is in flight towards a fiber suspended at a
    resume call wrapped in a user catch-all.  The signal is not caught at
    the trampoline and no exit handoff happens; instead the user handler
    runs on the unwound-into context (observing and satisfying the
    signal), its observable effect appears in the trace, and the record
    of the fiber is never freed - refuting that the signal is always
    caught at the trampoline before control leaves the fiber and that no
    user-level error handling can observe it. -/
theorem claim_C9_counterexample :
    unwindPending
        ⟨⟨[(5, Kont.resumeLoopCatch ⟨some 3, []⟩ 0 Prog.ret (.emit 99 (.ret ⟨none⟩)))],
          6, [3], 0, []⟩,
         .running (.ontopTo 5 (some 4) .unwindFn 0)⟩ = true
    ∧ exitHandoffOrFatal
        (step ⟨⟨[(5, Kont.resumeLoopCatch ⟨some 3, []⟩ 0 Prog.ret (.emit 99 (.ret ⟨none⟩)))],
                6, [3], 0, []⟩,
               .running (.ontopTo 5 (some 4) .unwindFn 0)⟩) = false
    ∧ noHandlerAt
        ⟨⟨[(5, Kont.resumeLoopCatch ⟨some 3, []⟩ 0 Prog.ret (.emit 99 (.ret ⟨none⟩)))],
          6, [3], 0, []⟩,
         .running (.ontopTo 5 (some 4) .unwindFn 0)⟩ = false
    ∧ (step ⟨⟨[(5, Kont.resumeLoopCatch ⟨some 3, []⟩ 0 Prog.ret (.emit 99 (.ret ⟨none⟩)))],
              6, [3], 0, []⟩,
             .running (.ontopTo 5 (some 4) .unwindFn 0)⟩).st
        = .running (.run ⟨some 3, []⟩ 0 (.emit 99 (.ret ⟨none⟩)))
    ∧ (stepN 2 ⟨⟨[(5, Kont.resumeLoopCatch ⟨some 3, []⟩ 0 Prog.ret (.emit 99 (.ret ⟨none⟩)))],
                 6, [3], 0, []⟩,
                .running (.ontopTo 5 (some 4) .unwindFn 0)⟩).w.events
        = [Event.emitted 99]
    ∧ (stepN 2 ⟨⟨[(5, Kont.resumeLoopCatch ⟨some 3, []⟩ 0 Prog.ret (.emit 99 (.ret ⟨none⟩)))],
                 6, [3], 0, []⟩,
                .running (.ontopTo 5 (some 4) .unwindFn 0)⟩).w.recs
        = [3] :=
  ⟨rfl, rfl, rfl, rfl, rfl, rfl⟩

/-- witness for the amended C9 at concrete inputs: with no user handler
    live on the unwound stack the in-flight signal resolves to the exit
    handoff (second part), and with one live the unwind is delivered to
    that handler (third part). -/
theorem claim_C9_witness :
    unwindPending
        ⟨⟨[(5, Kont.entryIdle ⟨3, Prog.ret⟩)], 6, [3], 0, []⟩,
         .running (.ontopTo 5 (some 4) .unwindFn 0)⟩ = true
    ∧ noHandlerAt
        ⟨⟨[(5, Kont.entryIdle ⟨3, Prog.ret⟩)], 6, [3], 0, []⟩,
         .running (.ontopTo 5 (some 4) .unwindFn 0)⟩ = true
    ∧ exitHandoffOrFatal
        (step ⟨⟨[(5, Kont.entryIdle ⟨3, Prog.ret⟩)], 6, [3], 0, []⟩,
               .running (.ontopTo 5 (some 4) .unwindFn 0)⟩) = true
    ∧ lookupCtx [(7, Kont.resumeLoopCatch ⟨none, []⟩ 2 Prog.ret (Prog.ret ⟨none⟩))] 7
        = some (.resumeLoopCatch ⟨none, []⟩ 2 Prog.ret (Prog.ret ⟨none⟩))
    ∧ fiber_unwind_step
        ⟨[(7, Kont.resumeLoopCatch ⟨none, []⟩ 2 Prog.ret (Prog.ret ⟨none⟩))], 8, [], 0, []⟩
        7 none 2 =
      ⟨⟨removeCtx [(7, Kont.resumeLoopCatch ⟨none, []⟩ 2 Prog.ret (Prog.ret ⟨none⟩))] 7,
        8, [], 0, []⟩,
       .running (.run ⟨none, []⟩ 2 (Prog.ret ⟨none⟩))⟩ :=
  ⟨rfl, rfl,
    claim_C9.2.1
      ⟨⟨[(5, Kont.entryIdle ⟨3, Prog.ret⟩)], 6, [3], 0, []⟩,
       .running (.ontopTo 5 (some 4) .unwindFn 0)⟩ rfl rfl,
    rfl,
    claim_C9.2.2
      ⟨[(7, Kont.resumeLoopCatch ⟨none, []⟩ 2 Prog.ret (Prog.ret ⟨none⟩))], 8, [], 0, []⟩
      7 none 2 ⟨none, []⟩ 2 Prog.ret (Prog.ret ⟨none⟩) rfl⟩

end BoostContext
